import Mathlib

/-!
Shallow embedding of the fetch-and-normalize pipeline of `src/Code.js`
(a Google Apps Script court scraper).  Strings are modelled as `List Char`
(JS strings are sequences of UTF-16 units; all characters involved here lie
in the BMP, so one `Char` per JS unit).  JS `undefined` is `Option.none`,
thrown exceptions are `Except.error` with the message text, and machine
numbers are `Int` (every number in scope is a small integer).
-/

namespace Scraper

/-- Embedding of `removeAccents` (src/Code.js:25-41).  The JS regex
`[áéíóú]` is a single-character class containing
exactly the five lower-case accented vowels, so `String.replace` acts as a
character-wise map.  The upper-case entries of `accentMap` are unreachable:
the regex never matches an upper-case character. -/
def accentReplace (c : Char) : Char :=
  if c = 'á' then 'a'
  else if c = 'é' then 'e'
  else if c = 'í' then 'i'
  else if c = 'ó' then 'o'
  else if c = 'ú' then 'u'
  else c

/-- `removeAccents` on a whole string (src/Code.js:25-41). -/
def removeAccents (s : List Char) : List Char := s.map accentReplace

/-- JS `String.prototype.toLowerCase`, restricted to the characters this
program ever feeds it: ASCII letters plus the accented vowels and eñe used
by the Spanish room names.  All other characters are fixed points, matching
JS on every string appearing in this development. -/
def jsToLower (c : Char) : Char :=
  if 'A' ≤ c ∧ c ≤ 'Z' then Char.ofNat (c.toNat + 32)
  else if c = 'Á' then 'á'
  else if c = 'É' then 'é'
  else if c = 'Í' then 'í'
  else if c = 'Ó' then 'ó'
  else if c = 'Ú' then 'ú'
  else if c = 'Ñ' then 'ñ'
  else c

/-- `toLowerCase` on a whole string. -/
def toLowerStr (s : List Char) : List Char := s.map jsToLower

/-- The fixed reference list of room names, `salaStringReference`
(src/Code.js:46-61), with the `"dummy index"` placeholder at position 0. -/
def salaStringReference : List String :=
  ["dummy index", "primera", "segunda", "tercera", "cuarta", "quinta",
   "sexta", "septima", "octava", "novena", "decima", "undecima",
   "duodecima", "decimotercera"]

/-- JS `Array.prototype.indexOf`: index of the first occurrence, `-1` when
absent. -/
def jsIndexOf : List String → String → Int
  | [], _ => -1
  | y :: ys, x =>
    if y = x then 0
    else
      let r := jsIndexOf ys x
      if r = -1 then -1 else r + 1

/-- Inner helper `salaStringToNumber` (src/Code.js:45-65): lower-cases its
input and looks it up in `salaStringReference`. -/
def salaStringToNumber (s : List Char) : Int :=
  jsIndexOf salaStringReference (String.mk (toLowerStr s))

/-- `translateRoomNameToRoomNumber` (src/Code.js:43-71): strips accents,
then delegates to `salaStringToNumber` (which lower-cases). -/
def translateRoomNameToRoomNumber (s : List Char) : Int :=
  salaStringToNumber (removeAccents s)

/-- A JS object modelled as an ordered field list; the value type is a
parameter since `zipArrays` is generic over element contents. -/
abbrev Obj (β : Type) : Type := List (String × β)

/-- JS property assignment `o[k] = v`: update the existing field in place
(keeping field order — object keys are unique, so the first hit is the
field), otherwise append the new field. -/
def setField {β : Type} (o : Obj β) (k : String) (v : β) : Obj β :=
  match o with
  | [] => [(k, v)]
  | p :: ps => if p.1 = k then (k, v) :: ps else p :: setField ps k v

/-- JS property read `o[k]`: the first field with that key. -/
def getField {β : Type} (o : Obj β) (k : String) : Option β :=
  (o.find? (fun p => p.1 = k)).map (fun p => p.2)

/-- Embedding of `zipArrays` (src/Code.js:11-23).  The source first takes a
structural deep copy `JSON.parse(JSON.stringify(mainArray))` (identity in
this value semantics, and the reason the original array is never touched),
then throws when the lengths differ, and otherwise assigns
`element[dataIdentifier] = dataToAppend[index]` on each copied element. -/
def zipArrays {β : Type} (mainArray : List (Obj β)) (dataToAppend : List β)
    (dataIdentifier : String) : Except String (List (Obj β)) :=
  if mainArray.length ≠ dataToAppend.length then
    .error "Arrays must be same size in order to zip them!"
  else
    .ok ((mainArray.zip dataToAppend).map
      (fun p => setField p.1 dataIdentifier p.2))

/-! ## HTML record extraction (`cleanUpResponses`, src/Code.js:251-287)

The source extracts records with two regexes.  Both are embedded here as
explicit scanners with the exact JS `matchAll` semantics for the patterns
involved (left-most match, global flag resuming at the match end, lazy
quantifiers preferring the shortest capture, optional groups tried
greedily first). -/

/-- First occurrence of `pat` in a string: `some (before, after)` splits
around the occurrence, `none` when `pat` does not occur. -/
def splitAtSub (pat : List Char) : List Char → Option (List Char × List Char)
  | [] => none
  | c :: cs =>
    if pat.isPrefixOf (c :: cs) then some ([], (c :: cs).drop pat.length)
    else
      match splitAtSub pat cs with
      | none => none
      | some (b, r) => some (c :: b, r)

/-- JS `RegExp.test` for a plain-text pattern: substring containment. -/
def containsSub (pat : List Char) (s : List Char) : Bool :=
  (splitAtSub pat s).isSome

/-- The content-panel delimiter of the outer regex
`<div class="panel-body">([\s\S]*?)<\/div>` (src/Code.js:257). -/
def panelOpen : List Char := "<div class=\"panel-body\">".data

/-- The closing literal of the outer regex. -/
def closeDiv : List Char := "</div>".data

/-- The marker distinguishing room-assignment responses
(src/Code.js:255). -/
def roomMarker : List Char := "<table id=\"dataTypeTable\"".data

/-- `matchAll` loop for the outer regex: each match starts at the left-most
remaining occurrence of the open delimiter, the lazy `[\s\S]*?` capture runs
to the first `</div>` after it, and scanning resumes after that `</div>`.
An open delimiter with no `</div>` after it (and hence none after any later
open delimiter either) yields no further match.  Fuel is the remaining
string length; every iteration consumes at least the delimiter. -/
def panelLoop : Nat → List Char → List (List Char)
  | 0, _ => []
  | Nat.succ fuel, s =>
    match splitAtSub panelOpen s with
    | none => []
    | some (_, rest) =>
      match splitAtSub closeDiv rest with
      | none => []
      | some (content, rest2) => content :: panelLoop fuel rest2

/-- All captures of the outer regex over a response
(`[...response.matchAll(outerRegex)]` mapped to group 1). -/
def panelMatches (s : List Char) : List (List Char) := panelLoop (s.length + 1) s

/-- JS `\s` on the characters relevant here. -/
def jsWs (c : Char) : Bool :=
  c == ' ' || c == '\t' || c == '\n' || c == '\r' || c == '\x0B' || c == '\x0C'

/-- Greedy `\s*`. -/
def skipWs (s : List Char) : List Char := s.dropWhile jsWs

/-- `[^>]*>`: everything up to and including the first `>`; fails when no
`>` remains (then the whole cell match at this position fails). -/
def consumeUntilGt (s : List Char) : Option (List Char) :=
  match s.dropWhile (fun c => c != '>') with
  | '>' :: r => some r
  | _ => none

/-- The optional opening-anchor group `(?:<a[^>]*>)?`: literal `<a`, then
`[^>]*>`. -/
def consumeATag : List Char → Option (List Char)
  | '<' :: 'a' :: rest => consumeUntilGt rest
  | _ => none

/-- Closing-anchor literal. -/
def closeA : List Char := "</a>".data

/-- Cell-closing literal. -/
def closeTd : List Char := "</td>".data

/-- The tail of the cell regex after the capture:
`\s*(?:<\/a>)?\s*<\/td>`.  `\s*` is greedy and deterministic here (what
follows starts with `<`, never whitespace); the optional `</a>` is tried
first, falling back to the bare `</td>`.  Returns the remaining input after
`</td>` on success. -/
def afterCap (s : List Char) : Option (List Char) :=
  let s1 := skipWs s
  let withA :=
    if closeA.isPrefixOf s1 then
      let s2 := skipWs (s1.drop closeA.length)
      if closeTd.isPrefixOf s2 then some (s2.drop closeTd.length) else none
    else none
  match withA with
  | some r => some r
  | none => if closeTd.isPrefixOf s1 then some (s1.drop closeTd.length) else none

/-- The lazy capture `(.*?)`: shortest prefix (never crossing a line break,
since `.` excludes newlines) whose continuation matches `afterCap`. -/
def lazyCapture (acc : List Char) : List Char → Option (List Char × List Char)
  | [] =>
    match afterCap [] with
    | some rest => some (acc.reverse, rest)
    | none => none
  | c :: cs =>
    match afterCap (c :: cs) with
    | some rest => some (acc.reverse, rest)
    | none =>
      if c == '\n' || c == '\r' then none else lazyCapture (c :: acc) cs

/-- Attempt the cell regex
`<td[^>]*>\s*(?:<a[^>]*>)?\s*(.*?)\s*(?:<\/a>)?\s*<\/td>` immediately after
a `<td` literal: `[^>]*>`, greedy `\s*`, then the optional `<a…>` branch is
tried before the branch without it (JS optional groups are greedy), each
continuing with the lazy capture. -/
def tdTryAt (s : List Char) : Option (List Char × List Char) :=
  match consumeUntilGt s with
  | none => none
  | some s1 =>
    let s2 := skipWs s1
    let withA :=
      match consumeATag s2 with
      | some s3 => lazyCapture [] (skipWs s3)
      | none => none
    match withA with
    | some r => some r
    | none => lazyCapture [] s2

/-- The cell literal opening the regex. -/
def tdOpen : List Char := "<td".data

/-- `matchAll` loop for the cell regex (src/Code.js:260-261): scan to the
next `<td` literal; if the full pattern matches there, emit the capture and
resume after the `</td>`, otherwise resume scanning after this `<td`
(no later match can start inside the literal, `<td` cannot overlap
itself). -/
def tdLoop : Nat → List Char → List String
  | 0, _ => []
  | Nat.succ fuel, s =>
    match splitAtSub tdOpen s with
    | none => []
    | some (_, afterTd) =>
      match tdTryAt afterTd with
      | some (cap, rest) => String.mk cap :: tdLoop fuel rest
      | none => tdLoop fuel afterTd

/-- All cell captures of a panel body. -/
def tdMatches (s : List Char) : List String := tdLoop (s.length + 1) s

/-- One extracted record: the room-assignment shape (`salaObject`,
src/Code.js:265-270) or the case shape (`causaObject`, src/Code.js:274-278).
Fields holding JS `undefined` are `none`. -/
inductive Rec where
  | sala (fecha salaStr : String) (salaInt : Int) (relator : Option String)
  | causa (lugar : String) (caratula id_ingreso : Option String)
deriving DecidableEq, Repr

/-- The grouping loop of `cleanUpResponses` for a room response
(src/Code.js:263-272): `for (i = 0; i < matches.length; i += 3)` builds a
`salaObject` from `matches[i..i+2]`.  With one trailing cell, `matches[i+1]`
is `undefined` and `translateRoomNameToRoomNumber(undefined)` throws inside
`removeAccents` (`undefined.replace`); with two, the object is pushed with
an `undefined` `relator`. -/
def groupRooms : List String → Except String (List Rec)
  | [] => .ok []
  | [_] =>
    .error "TypeError: Cannot read properties of undefined (reading replace)"
  | [a, b] =>
    .ok [.sala a b (translateRoomNameToRoomNumber b.data) none]
  | a :: b :: c :: rest =>
    match groupRooms rest with
    | .error e => .error e
    | .ok tail =>
      .ok (.sala a b (translateRoomNameToRoomNumber b.data) (some c) :: tail)

/-- The grouping loop for a case response (src/Code.js:273-280): the same
`i += 3` walk; trailing cells yield a final `causaObject` whose missing
fields are `undefined`. -/
def groupCausas : List String → List Rec
  | [] => []
  | [a] => [.causa a none none]
  | [a, b] => [.causa a (some b) none]
  | a :: b :: c :: rest => .causa a (some b) (some c) :: groupCausas rest

/-- The per-response body of `cleanUpResponses` (src/Code.js:254-283): probe
for the room marker, take the last content-panel capture
(`allOuterMatches[allOuterMatches.length - 1][1]` throws a `TypeError` when
there is no match at all), extract the cells, and run the grouping loop
(the two `if` branches of the single source loop, split by the constant
`isRoomResponse`). -/
def cleanUpOne (response : List Char) : Except String (List Rec) :=
  let isRoomResponse := containsSub roomMarker response
  match (panelMatches response).getLast? with
  | none => .error "TypeError: Cannot read properties of undefined (reading 1)"
  | some outerMatch =>
    let cells := tdMatches outerMatch
    if isRoomResponse then groupRooms cells else .ok (groupCausas cells)

/-- JS `Array.map` with a callback that may throw: elements are processed
in order and the first thrown error aborts the whole map. -/
def mapExcept {ε α β : Type} (f : α → Except ε β) : List α → Except ε (List β)
  | [] => .ok []
  | x :: xs =>
    match f x with
    | .error e => .error e
    | .ok y =>
      match mapExcept f xs with
      | .error e => .error e
      | .ok ys => .ok (y :: ys)

/-- `cleanUpResponses` (src/Code.js:251-287): map the per-response
extraction over the batch; a thrown error aborts the whole map. -/
def cleanUpResponses (arrayOfContentTextResponses : List (List Char)) :
    Except String (List (List Rec)) :=
  mapExcept cleanUpOne arrayOfContentTextResponses

/-! ## Phase-2 request building and pipeline assembly -/

/-- `room['fecha']` on an extracted record: `undefined` on the case
shape. -/
def fechaOf : Rec → Option String
  | .sala f _ _ _ => some f
  | .causa _ _ _ => none

/-- `room['salaInt']` on an extracted record. -/
def salaIntOf : Rec → Option Int
  | .sala _ _ i _ => some i
  | .causa _ _ _ => none

/-- `singleCase.lugar`. -/
def lugarOf : Rec → Option String
  | .causa l _ _ => some l
  | .sala _ _ _ _ => none

/-- `singleCase.caratula`. -/
def caratulaOf : Rec → Option String
  | .causa _ c _ => c
  | .sala _ _ _ _ => none

/-- `singleCase.id_ingreso`. -/
def idIngresoOf : Rec → Option String
  | .causa _ _ i => i
  | .sala _ _ _ _ => none

/-- `room.relator`. -/
def relatorOf : Rec → Option String
  | .sala _ _ _ r => r
  | .causa _ _ _ => none

/-- Auxiliary walk for `[...new Set(xs)]`: a JS `Set` iterates in insertion
order, keeping the first occurrence of each value. -/
def jsSetDedupAux {α : Type} [DecidableEq α] : List α → List α → List α
  | _, [] => []
  | seen, x :: xs =>
    if x ∈ seen then jsSetDedupAux seen xs
    else x :: jsSetDedupAux (x :: seen) xs

/-- `[...new Set(xs)]`. -/
def jsSetDedup {α : Type} [DecidableEq α] (l : List α) : List α :=
  jsSetDedupAux [] l

/-- `weekInfo`: distinct dates and distinct room numbers of one court
(values read off records duck-typed, hence optional). -/
structure WeekInfo where
  fechas : List (Option String)
  salas : List (Option Int)
deriving DecidableEq, Repr

/-- `extractParametersFromRoomsData` (src/Code.js:137-149). -/
def extractParametersFromRoomsData (courtData : List (List Rec)) :
    List WeekInfo :=
  courtData.map (fun tribunal =>
    { fechas := jsSetDedup (tribunal.map fechaOf),
      salas := jsSetDedup (tribunal.map salaIntOf) })

/-- The fields of a court row the pipeline reads (`codCorte`, `condicion`,
`Nombre Corte`), from the `courtData` objects of `getCourtParameters`. -/
structure CourtData where
  nombreCorte : String
  codCorte : String
  condicion : String
deriving DecidableEq, Repr

/-- One phase-2 request descriptor (src/Code.js:199-210). -/
structure CaseRequest where
  url : String
  method : String
  numSala : Option Int
  codCorte : String
  tipoTabla : Int
  fecha : Option String
  nomSala : String
  condicion : String
deriving DecidableEq, Repr

/-- The request object literal of `createCaseRequestsArray`. -/
def mkCaseRequest (court : CourtData) (fecha : Option String)
    (sala : Option Int) : CaseRequest :=
  { url := "https://www.pjud.cl/ajax/Courts/constitutionOfRoomML/",
    method := "post",
    numSala := sala,
    codCorte := court.codCorte,
    tipoTabla := 3,
    fecha := fecha,
    nomSala := "",
    condicion := court.condicion }

/-- `createCaseRequestsArray` (src/Code.js:192-218): for each court, the outer
`for` walks `weekInfo.fechas` and the inner `forEach` walks
`weekInfo.salas`, pushing one request per combination, date-major;
the per-court inner arrays are pushed in input order. -/
def createCaseRequestsArray (courtAndDateParameters : List (CourtData × WeekInfo)) :
    List (List CaseRequest) :=
  courtAndDateParameters.map (fun p =>
    p.2.fechas.flatMap (fun f => p.2.salas.map (fun s => mkCaseRequest p.1 f s)))

/-- The pipeline's `zipArrays` calls (src/Code.js:373-377) zip typed
collections, attaching `dataToAppend[i]` to `mainArray[i]` under a fresh
field name; in this typed model the attachment is pairing.  Same length
guard and error as `zipArrays`. -/
def zipPair {α β : Type} (mainArray : List α) (dataToAppend : List β) :
    Except String (List (α × β)) :=
  if mainArray.length ≠ dataToAppend.length then
    .error "Arrays must be same size in order to zip them!"
  else .ok (mainArray.zip dataToAppend)

/-- One entry of `courtsRoomsAndCases`: a court with its `roomsData` and
`casesData` fields attached by the two zips. -/
structure AssembledCourt where
  courtData : CourtData
  roomsData : List Rec
  casesData : List (List Rec)
deriving DecidableEq, Repr

/-- The phase-2 portion of `mainExecutionScript` (src/Code.js:351-389),
starting from the already-extracted per-court room records: derive each
court's distinct dates/rooms, zip them onto the courts as `weekInfo`, build
the case requests, fetch them (`fetch` supplies each response body, one per
request, as `UrlFetchApp.fetchAll` does) and extract their records, then
zip `roomsData` and `casesData` onto the courts. -/
def runPhase2 (courts : List CourtData) (rooms : List (List Rec))
    (fetch : CaseRequest → List Char) :
    Except String (List AssembledCourt) :=
  match zipPair courts (extractParametersFromRoomsData rooms) with
  | .error e => .error e
  | .ok courtsAndFechas =>
    match mapExcept cleanUpResponses
        ((createCaseRequestsArray courtsAndFechas).map
          (fun reqs => reqs.map fetch)) with
    | .error e => .error e
    | .ok cases =>
      match zipPair courts rooms with
      | .error e => .error e
      | .ok courtsAndRooms =>
        match zipPair courtsAndRooms cases with
        | .error e => .error e
        | .ok courtsRoomsAndCases =>
          .ok (courtsRoomsAndCases.map (fun p => ⟨p.1.1, p.1.2, p.2⟩))

/-! ## Row projection and filtering (`readyResponsesForSheet`,
src/Code.js:298-336) -/

/-- One output row.  The source emits a 10-element array; the last three
entries are the constant `""` reserved columns and are omitted from the
model. -/
structure Row where
  fecha : Option String
  nomCorte : String
  lugar : Option String
  caratula : Option String
  id_ingreso : Option String
  relator : Option String
  salaInt : Option Int
deriving DecidableEq, Repr

/-- The row-building double loop for one court (src/Code.js:300-320):
for each `casesByRoom` at index `cbrIndex` and each of its cases, read
`court.roomsData[cbrIndex]` (a `TypeError` when `casesData` is longer than
`roomsData` and that inner list is non-empty) and emit the row. -/
def buildRowsForCourt (court : AssembledCourt) : Except String (List Row) :=
  match mapExcept (fun ic =>
    mapExcept (fun singleCase =>
      match court.roomsData.get? ic.1 with
      | none =>
        .error "TypeError: Cannot read properties of undefined (reading fecha)"
      | some room =>
        .ok { fecha := fechaOf room,
              nomCorte := court.courtData.nombreCorte,
              lugar := lugarOf singleCase,
              caratula := caratulaOf singleCase,
              id_ingreso := idIngresoOf singleCase,
              relator := relatorOf room,
              salaInt := salaIntOf room }) ic.2) court.casesData.enum with
  | .error e => .error e
  | .ok rowsByRoom => .ok rowsByRoom.flatten

/-- `new RegExp(filteringTerms.join("|"), "i").test(text)` for the plain
word terms this pipeline uses: with zero terms the joined pattern is the
empty string, which matches every input; otherwise the alternation matches
iff some term occurs case-insensitively as a substring. -/
def jsAltRegexTest (terms : List String) (text : List Char) : Bool :=
  terms.isEmpty || terms.any (fun t => containsSub (toLowerStr t.data) (toLowerStr text))

/-- JS `Array.filter` whose predicate may throw: evaluate in order,
propagating the first error. -/
def filterExcept {α : Type} (p : α → Except String Bool) :
    List α → Except String (List α)
  | [] => .ok []
  | x :: xs =>
    match p x with
    | .error e => .error e
    | .ok b =>
      match filterExcept p xs with
      | .error e => .error e
      | .ok rest => .ok (if b then x :: rest else rest)

/-- The object `readyResponsesForSheet` returns: the `"Todas las causas"`
entry, one entry per court name (a duplicated court name overwrites with
the same filtered value), and the `"Filtrado"` entry. -/
structure SheetMatrix where
  todas : List Row
  porCorte : List (String × List Row)
  filtrado : List Row
deriving DecidableEq, Repr

/-- `readyResponsesForSheet` (src/Code.js:298-336): build all rows (the
outer `forEach` over courts concatenates the per-court rows in order),
partition them by court name, then filter by the term regex applied to the
lower-cased, accent-stripped caption (`item[3].toLowerCase()` throws when
the caption is `undefined`). -/
def readyResponsesForSheet (courtsRoomsAndCases : List AssembledCourt)
    (filteringTerms : List String) : Except String SheetMatrix :=
  match mapExcept buildRowsForCourt courtsRoomsAndCases with
  | .error e => .error e
  | .ok rowsPerCourt =>
    let todas := rowsPerCourt.flatten
    let porCorte := courtsRoomsAndCases.map (fun court =>
      (court.courtData.nombreCorte,
       todas.filter (fun row => row.nomCorte == court.courtData.nombreCorte)))
    match filterExcept (fun item =>
      match item.caratula with
      | none =>
        .error "TypeError: Cannot read properties of undefined (reading toLowerCase)"
      | some car =>
        .ok (jsAltRegexTest filteringTerms (removeAccents (toLowerStr car.data))))
      todas with
    | .error e => .error e
    | .ok filtrado => .ok { todas := todas, porCorte := porCorte, filtrado := filtrado }

/-! ## Concrete inputs used by counterexamples and witnesses -/

/-- A case-shaped response whose single content panel holds four cells. -/
def exCausaFourCells : List Char :=
  "<div class=\"panel-body\"><table><tr><td>a1</td><td>a2</td><td>a3</td><td>a4</td></tr></table></div>".data

/-- A response with a content panel but no table cells at all. -/
def exEmptyPanel : List Char :=
  "<div class=\"panel-body\">no table here</div>".data

/-- A case-shaped response whose panel is empty: a successful extraction
with zero records. -/
def exEmptyCaseResponse : List Char :=
  "<div class=\"panel-body\"></div>".data

/-- A court parameter row. -/
def exCourt : CourtData := ⟨"Corte Suprema", "1", "normal"⟩

/-- A second court parameter row. -/
def exCourt2 : CourtData := ⟨"Santiago", "2", "normal"⟩

/-- Extracted room assignments for one court: two records whose (date,
room) pairs do not form the full date × room product. -/
def exRooms : List (List Rec) :=
  [[.sala "d1" "Primera" 1 (some "R1"), .sala "d2" "Segunda" 2 (some "R2")]]

/-- Extracted room assignments whose (date, room) pairs are exactly the
date-major product of their distinct dates and rooms. -/
def exRoomsAligned : List (List Rec) :=
  [[.sala "d1" "Primera" 1 (some "R1"), .sala "d2" "Primera" 1 (some "R1")]]

/-- An assembled court with one room assignment carrying one case. -/
def exAssembled : AssembledCourt :=
  ⟨exCourt, [.sala "d1" "Primera" 1 (some "R1")],
   [[.causa "L" (some "Recurso de Queja") (some "123")]]⟩

/-- The sequence of (date, room) pairs a court's `roomsData` exposes
(the values `extractParametersFromRoomsData` reads). -/
def roomPairs (rs : List Rec) : List (Option String × Option Int) :=
  rs.map (fun r => (fechaOf r, salaIntOf r))

/-- The date-major product of the distinct dates and rooms of `rs`, in the
order `createCaseRequestsArray` enumerates the phase-2 requests. -/
def prodPairs (rs : List Rec) : List (Option String × Option Int) :=
  (jsSetDedup (rs.map fechaOf)).flatMap
    (fun f => (jsSetDedup (rs.map salaIntOf)).map (fun s => (f, s)))

/-! ## Helper lemmas -/

theorem accentReplace_idem (c : Char) :
    accentReplace (accentReplace c) = accentReplace c := by
  by_cases h1 : c = 'á'
  · subst h1; rfl
  by_cases h2 : c = 'é'
  · subst h2; rfl
  by_cases h3 : c = 'í'
  · subst h3; rfl
  by_cases h4 : c = 'ó'
  · subst h4; rfl
  by_cases h5 : c = 'ú'
  · subst h5; rfl
  simp [accentReplace, h1, h2, h3, h4, h5]

theorem accentReplace_of_ne (c : Char) (h1 : c ≠ 'á') (h2 : c ≠ 'é')
    (h3 : c ≠ 'í') (h4 : c ≠ 'ó') (h5 : c ≠ 'ú') : accentReplace c = c := by
  simp [accentReplace, h1, h2, h3, h4, h5]

theorem removeAccents_of_unaccented (s : List Char)
    (h : ∀ c ∈ s, c ∉ (['á', 'é', 'í', 'ó', 'ú'] : List Char)) :
    removeAccents s = s := by
  unfold removeAccents
  have hmap : ∀ c ∈ s, accentReplace c = c := by
    intro c hc
    have := h c hc
    simp only [List.mem_cons, List.not_mem_nil, or_false, not_or] at this
    exact accentReplace_of_ne c this.1 this.2.1 this.2.2.1 this.2.2.2.1 this.2.2.2.2
  exact (List.map_congr_left hmap).trans (List.map_id s)

theorem getField_setField_self {β : Type} (o : Obj β) (k : String) (v : β) :
    getField (setField o k v) k = some v := by
  induction o with
  | nil => simp [setField, getField, List.find?]
  | cons p ps ih =>
    by_cases h : p.1 = k
    · simp [setField, h, getField, List.find?]
    · simp only [setField, if_neg h, getField] at ih ⊢
      rw [List.find?_cons_of_neg _ (by simp [h])]
      exact ih

theorem getField_setField_other {β : Type} (o : Obj β) (k k' : String) (v : β)
    (hne : k' ≠ k) : getField (setField o k v) k' = getField o k' := by
  induction o with
  | nil =>
    simp only [setField, getField]
    rw [List.find?_cons_of_neg _
      (by simp only [decide_eq_true_eq]; exact fun hh => hne hh.symm)]
  | cons p ps ih =>
    by_cases h : p.1 = k
    · have hp : ¬ p.1 = k' := by rw [h]; exact fun hh => hne hh.symm
      simp only [setField, if_pos h, getField]
      rw [List.find?_cons_of_neg _
        (by simp only [decide_eq_true_eq]; exact fun hh => hne hh.symm),
          List.find?_cons_of_neg _ (by simp [hp])]
    · simp only [setField, if_neg h, getField] at ih ⊢
      by_cases hp : p.1 = k'
      · rw [List.find?_cons_of_pos _ (by simp [hp]),
            List.find?_cons_of_pos _ (by simp [hp])]
      · rw [List.find?_cons_of_neg _ (by simp [hp]),
            List.find?_cons_of_neg _ (by simp [hp])]
        exact ih

theorem zip_getElem?_of {α β : Type} :
    ∀ (A : List α) (B : List β) (i : Nat) (a : α) (b : β),
      A[i]? = some a → B[i]? = some b → (A.zip B)[i]? = some (a, b)
  | [], _, i, _, _, ha, _ => by simp at ha
  | _ :: _, [], i, _, _, _, hb => by simp at hb
  | x :: xs, y :: ys, 0, a, b, ha, hb => by
    simp only [List.getElem?_cons_zero, Option.some.injEq] at ha hb
    simp [List.zip_cons_cons, ha, hb]
  | x :: xs, y :: ys, Nat.succ i, a, b, ha, hb => by
    simp only [List.getElem?_cons_succ] at ha hb
    simpa [List.zip_cons_cons] using zip_getElem?_of xs ys i a b ha hb

theorem zip_getElem?_inv {α β : Type} :
    ∀ (A : List α) (B : List β) (i : Nat) (p : α × β),
      (A.zip B)[i]? = some p → A[i]? = some p.1 ∧ B[i]? = some p.2
  | [], _, i, _, h => by simp at h
  | _ :: _, [], i, _, h => by simp at h
  | x :: xs, y :: ys, 0, p, h => by
    simp only [List.zip_cons_cons, List.getElem?_cons_zero,
      Option.some.injEq] at h
    simp [← h]
  | x :: xs, y :: ys, Nat.succ i, p, h => by
    simp only [List.zip_cons_cons, List.getElem?_cons_succ] at h
    simpa using zip_getElem?_inv xs ys i p h

theorem mapExcept_ok_length {ε α β : Type} (f : α → Except ε β) :
    ∀ (l : List α) (r : List β), mapExcept f l = .ok r → r.length = l.length
  | [], r, h => by
    simp only [mapExcept, Except.ok.injEq] at h
    simp [← h]
  | x :: xs, r, h => by
    simp only [mapExcept] at h
    cases hx : f x with
    | error e => rw [hx] at h; cases h
    | ok y =>
      rw [hx] at h
      cases hxs : mapExcept f xs with
      | error e => rw [hxs] at h; cases h
      | ok ys =>
        rw [hxs] at h
        cases h
        simp [mapExcept_ok_length f xs ys hxs]

theorem mapExcept_ok_getElem? {ε α β : Type} (f : α → Except ε β) :
    ∀ (l : List α) (r : List β), mapExcept f l = .ok r →
      ∀ (i : Nat) (a : α), l[i]? = some a →
        ∃ b, r[i]? = some b ∧ f a = .ok b
  | [], r, h, i, a, ha => by simp at ha
  | x :: xs, r, h, i, a, ha => by
    simp only [mapExcept] at h
    cases hx : f x with
    | error e => rw [hx] at h; cases h
    | ok y =>
      rw [hx] at h
      cases hxs : mapExcept f xs with
      | error e => rw [hxs] at h; cases h
      | ok ys =>
        rw [hxs] at h
        cases h
        cases i with
        | zero =>
          simp only [List.getElem?_cons_zero, Option.some.injEq] at ha
          exact ⟨y, by simp, by rw [← ha]; exact hx⟩
        | succ i =>
          simp only [List.getElem?_cons_succ] at ha ⊢
          exact mapExcept_ok_getElem? f xs ys hxs i a ha

theorem mapExcept_error_of_mem {ε α β : Type} (f : α → Except ε β) :
    ∀ (l : List α) (x : α), x ∈ l → (∃ e, f x = .error e) →
      ∃ e, mapExcept f l = .error e
  | [], x, hx, _ => by simp at hx
  | y :: ys, x, hx, hf => by
    cases hy : f y with
    | error e => exact ⟨e, by simp [mapExcept, hy]⟩
    | ok b =>
      have hxys : x ∈ ys := by
        rcases List.mem_cons.mp hx with rfl | hm
        · obtain ⟨e, he⟩ := hf
          rw [hy] at he
          cases he
        · exact hm
      obtain ⟨e, he⟩ := mapExcept_error_of_mem f ys x hxys hf
      exact ⟨e, by simp [mapExcept, hy, he]⟩

theorem filterExcept_ok_of_all_true {α : Type} (p : α → Except String Bool)
    (hall : ∀ x b, p x = .ok b → b = true) :
    ∀ (l r : List α), filterExcept p l = .ok r → r = l
  | [], r, h => by
    simp only [filterExcept, Except.ok.injEq] at h
    exact h.symm
  | x :: xs, r, h => by
    simp only [filterExcept] at h
    cases hx : p x with
    | error e => rw [hx] at h; cases h
    | ok b =>
      rw [hx] at h
      cases hxs : filterExcept p xs with
      | error e => rw [hxs] at h; cases h
      | ok rest =>
        rw [hxs] at h
        cases h
        rw [hall x b hx]
        simp [filterExcept_ok_of_all_true p hall xs rest hxs]

/-! ## Claims about the text normalizer -/

/-- C9: `removeAccents` is idempotent — applying it twice yields the same
result as applying it once, for every input string. -/
theorem removeAccents_idempotent (s : List Char) :
    removeAccents (removeAccents s) = removeAccents s := by
  unfold removeAccents
  rw [List.map_map]
  exact List.map_congr_left (fun c _ => accentReplace_idem c)

/-- C4 counterexample: `removeAccents` does not map "Relator Núñez" to
"Relator Nunez" (the eñe is untouched), and does not replace upper-case
accented vowels (the regex of src/Code.js:26 matches only the five
lower-case ones). -/
theorem removeAccents_claim_false :
    removeAccents ("Relator Núñez".data) = "Relator Nuñez".data ∧
    removeAccents ("Relator Núñez".data) ≠ "Relator Nunez".data ∧
    removeAccents ("Á".data) ≠ "A".data := by
  refine ⟨rfl, by decide, by decide⟩

/-- C4 (amended): `removeAccents` replaces exactly the five lower-case
accented vowels á é í ó ú by their unaccented equivalents; every other
character — including the upper-case accented vowels and eñe — passes
through unchanged, so `removeAccents("Relator Núñez") = "Relator Nuñez"`. -/
theorem removeAccents_amended :
    removeAccents ("áéíóú".data) = "aeiou".data ∧
    removeAccents ("ÁÉÍÓÚ".data) = "ÁÉÍÓÚ".data ∧
    removeAccents ("Relator Núñez".data) = "Relator Nuñez".data ∧
    ∀ s : List Char,
      (∀ c ∈ s, c ∉ (['á', 'é', 'í', 'ó', 'ú'] : List Char)) →
      removeAccents s = s := by
  exact ⟨rfl, rfl, rfl, removeAccents_of_unaccented⟩

/-- Witness for the amended C4 at a concrete accent-free input. -/
theorem removeAccents_amended_witness : removeAccents ("xyz".data) = "xyz".data :=
  removeAccents_amended.2.2.2 _ (by decide)

/-- C5 counterexample: the room-name translation strips accents before
lower-casing, so the upper-case accented "DÉCIMA" survives the strip,
lower-cases to "décima", misses the reference list and yields −1, not 10. -/
theorem translate_DECIMA_claim_false :
    translateRoomNameToRoomNumber ("DÉCIMA".data) = -1 ∧ (-1 : Int) ≠ 10 := by
  exact ⟨rfl, by decide⟩

/-- C5 (amended): the translation accent-strips and then lower-cases, and
returns the 1-indexed position in the thirteen-name list; "Segunda" ↦ 2 and
unlisted names ↦ −1 as claimed, but upper-case accented spellings such as
"DÉCIMA" are not recognized (−1), while "décima"/"Décima" ↦ 10. -/
theorem translate_amended :
    translateRoomNameToRoomNumber ("Segunda".data) = 2 ∧
    translateRoomNameToRoomNumber ("décima".data) = 10 ∧
    translateRoomNameToRoomNumber ("Décima".data) = 10 ∧
    translateRoomNameToRoomNumber ("DÉCIMA".data) = -1 ∧
    translateRoomNameToRoomNumber ("inventada".data) = -1 := by
  exact ⟨rfl, rfl, rfl, rfl, rfl⟩

/-- C10: any casing of the placeholder "dummy index" (position 0 of the
reference list) translates to 0 — a value that is neither the −1 not-found
sentinel nor a valid room number in 1..13. -/
theorem translate_dummy_index (s : List Char)
    (h : toLowerStr s = "dummy index".data) :
    translateRoomNameToRoomNumber s = 0 ∧
    (0 : Int) ≠ -1 ∧ ¬ (1 ≤ (0 : Int) ∧ (0 : Int) ≤ 13) := by
  have hacc : removeAccents s = s := by
    apply removeAccents_of_unaccented
    intro c hc hmem
    have hl : jsToLower c ∈ "dummy index".data := by
      rw [← h]
      exact List.mem_map_of_mem jsToLower hc
    simp only [List.mem_cons, List.not_mem_nil, or_false] at hmem
    rcases hmem with rfl | rfl | rfl | rfl | rfl <;> revert hl <;> decide
  refine ⟨?_, by decide, by decide⟩
  unfold translateRoomNameToRoomNumber salaStringToNumber
  rw [hacc, h]
  rfl

/-- Witness for C10 at a concrete mixed-case input. -/
theorem translate_dummy_index_witness :
    translateRoomNameToRoomNumber ("DummY IndEX".data) = 0 :=
  (translate_dummy_index _ (by decide)).1

/-- C2: `zipArrays` throws on any length mismatch (before touching either
input, so there is no partial merge), and on equal lengths `n` returns a
new `n`-element array whose `i`-th element is element `i` of the (deep
copy of the) primary array extended with the field `f` bound to `B[i]`,
all other fields unchanged — so the primary array is not mutated and
repeated zips of the same base array under different names cannot
interfere. -/
theorem zipArrays_spec {β : Type} (A : List (Obj β)) (B : List β) (f : String) :
    (A.length ≠ B.length →
      zipArrays A B f = .error "Arrays must be same size in order to zip them!") ∧
    (A.length = B.length →
      ∃ r, zipArrays A B f = .ok r ∧ r.length = A.length ∧
        ∀ (i : Nat) (o : Obj β) (b : β), A[i]? = some o → B[i]? = some b →
          ∃ ro, r[i]? = some ro ∧ getField ro f = some b ∧
            ∀ k, k ≠ f → getField ro k = getField o k) := by
  constructor
  · intro h; simp [zipArrays, h]
  · intro h
    refine ⟨(A.zip B).map (fun p => setField p.1 f p.2),
      by simp [zipArrays, h], by simp [List.length_zip, h], ?_⟩
    intro i o b ho hb
    refine ⟨setField o f b, ?_, getField_setField_self o f b,
      fun k hk => getField_setField_other o f k b hk⟩
    rw [List.getElem?_map, zip_getElem?_of A B i o b ho hb]
    rfl

/-- Witness for C2: a mismatched pair throws, a matched pair zips. -/
theorem zipArrays_spec_witness :
    zipArrays ([[("x", (1 : Int))]] : List (Obj Int)) [] "y" =
      .error "Arrays must be same size in order to zip them!" ∧
    ∃ r, zipArrays ([[("x", (1 : Int))]] : List (Obj Int)) [2] "y" = .ok r ∧
      r.length = 1 := by
  constructor
  · exact (zipArrays_spec _ _ _).1 (by decide)
  · obtain ⟨r, h1, h2, _⟩ :=
      (zipArrays_spec ([[("x", (1 : Int))]] : List (Obj Int)) [2] "y").2 rfl
    exact ⟨r, h1, h2⟩

theorem getElem?_some_lt {α : Type} :
    ∀ (l : List α) (i : Nat) (a : α), l[i]? = some a → i < l.length
  | [], i, a, h => by simp at h
  | x :: xs, 0, a, h => by simp
  | x :: xs, Nat.succ i, a, h => by
    simp only [List.getElem?_cons_succ] at h
    simpa [Nat.succ_lt_succ_iff] using getElem?_some_lt xs i a h

theorem prod_length {A B C : Type} (g : A → B → C) (l1 : List A) (l2 : List B) :
    (l1.flatMap (fun x => l2.map (fun y => g x y))).length =
      l1.length * l2.length := by
  induction l1 with
  | nil => simp
  | cons x xs ih =>
    simp only [List.flatMap_cons, List.length_append, List.length_map, ih,
      List.length_cons, Nat.add_mul, Nat.one_mul]
    omega

theorem prod_getElem? {A B C : Type} (g : A → B → C) :
    ∀ (l1 : List A) (l2 : List B) (j k : Nat) (a : A) (b : B),
      l1[j]? = some a → l2[k]? = some b →
      (l1.flatMap (fun x => l2.map (fun y => g x y)))[j * l2.length + k]? =
        some (g a b)
  | [], _, j, k, a, b, ha, hb => by simp at ha
  | x :: xs, l2, 0, k, a, b, ha, hb => by
    simp only [List.getElem?_cons_zero, Option.some.injEq] at ha
    subst ha
    have hk : k < l2.length := getElem?_some_lt l2 k b hb
    rw [List.flatMap_cons, Nat.zero_mul, Nat.zero_add,
      List.getElem?_append_left (by simpa using hk), List.getElem?_map, hb]
    rfl
  | x :: xs, l2, Nat.succ j, k, a, b, ha, hb => by
    simp only [List.getElem?_cons_succ] at ha
    have hidx : Nat.succ j * l2.length + k = l2.length + (j * l2.length + k) := by
      rw [Nat.succ_mul]; omega
    rw [List.flatMap_cons, hidx, List.getElem?_append_right (by simp)]
    simp only [List.length_map, Nat.add_sub_cancel_left]
    exact prod_getElem? g xs l2 j k a b ha hb

/-- C6: `createCaseRequestsArray` returns one inner list per input court,
in input order; the inner list for a court holds exactly
`|fechas| * |salas|` request descriptors — entry `j * |salas| + k` is the
request for the `j`-th date and `k`-th room (date-major) — and the
two-courts-one-date-two-rooms instance yields requests grouped as
`[[2],[2]]`. -/
theorem createCaseRequestsArray_spec (params : List (CourtData × WeekInfo)) :
    (createCaseRequestsArray params).length = params.length ∧
    (∀ (i : Nat) (p : CourtData × WeekInfo), params[i]? = some p →
      ∃ inner, (createCaseRequestsArray params)[i]? = some inner ∧
        inner.length = p.2.fechas.length * p.2.salas.length ∧
        ∀ (j k : Nat) (f : Option String) (s : Option Int),
          p.2.fechas[j]? = some f → p.2.salas[k]? = some s →
          inner[j * p.2.salas.length + k]? = some (mkCaseRequest p.1 f s)) ∧
    (createCaseRequestsArray
        [(exCourt, ⟨[some "d1"], [some 1, some 2]⟩),
         (exCourt2, ⟨[some "d1"], [some 1, some 2]⟩)]).map List.length =
      [2, 2] := by
  refine ⟨by simp [createCaseRequestsArray], ?_, rfl⟩
  intro i p hp
  refine ⟨p.2.fechas.flatMap (fun f => p.2.salas.map
    (fun s => mkCaseRequest p.1 f s)), ?_, prod_length _ _ _, ?_⟩
  · rw [createCaseRequestsArray, List.getElem?_map, hp]
    rfl
  · intro j k f s hf hs
    exact prod_getElem? _ _ _ j k f s hf hs

/-- Witness for C6 at a one-court, one-date, two-rooms input. -/
theorem createCaseRequestsArray_spec_witness :
    ∃ inner,
      (createCaseRequestsArray
        [(exCourt, ⟨[some "d1"], [some 1, some 2]⟩)])[0]? = some inner ∧
      inner.length = 2 := by
  obtain ⟨inner, h1, h2, _⟩ :=
    (createCaseRequestsArray_spec
      [(exCourt, ⟨[some "d1"], [some 1, some 2]⟩)]).2.1 0 _ rfl
  exact ⟨inner, h1, by simpa using h2⟩

theorem groupCausas_length :
    ∀ l : List String, (groupCausas l).length = (l.length + 2) / 3
  | [] => by simp [groupCausas]
  | [a] => by simp [groupCausas]
  | [a, b] => by simp [groupCausas]
  | a :: b :: c :: rest => by
    have ih := groupCausas_length rest
    simp only [groupCausas, List.length_cons, ih]
    omega

theorem groupRooms_mod1 :
    ∀ l : List String, l.length % 3 = 1 →
      groupRooms l =
        .error "TypeError: Cannot read properties of undefined (reading replace)"
  | [], h => by simp at h
  | [a], _ => rfl
  | [a, b], h => by simp at h
  | a :: b :: c :: rest, h => by
    have hr : rest.length % 3 = 1 := by
      simp only [List.length_cons] at h
      omega
    simp only [groupRooms, groupRooms_mod1 rest hr]

theorem groupRooms_mod2 :
    ∀ l : List String, l.length % 3 = 2 →
      ∃ out, groupRooms l = .ok out ∧ out.length = l.length / 3 + 1
  | [], h => by simp at h
  | [a], h => by simp at h
  | [a, b], _ => ⟨_, rfl, by simp⟩
  | a :: b :: c :: rest, h => by
    have hr : rest.length % 3 = 2 := by
      simp only [List.length_cons] at h
      omega
    obtain ⟨out, ho, hl⟩ := groupRooms_mod2 rest hr
    refine ⟨.sala a b (translateRoomNameToRoomNumber b.data) (some c) :: out,
      ?_, ?_⟩
    · simp only [groupRooms, ho]
    · simp only [List.length_cons, hl]
      omega

/-- C3 counterexample: a case response whose last content panel yields four
cells produces TWO records — the trailing one-cell group becomes a partial
record with undefined fields instead of being dropped (⌊4/3⌋ = 1). -/
theorem partial_group_claim_false :
    (∃ lp, (panelMatches exCausaFourCells).getLast? = some lp ∧
      (tdMatches lp).length = 4) ∧
    cleanUpOne exCausaFourCells =
      .ok [.causa "a1" (some "a2") (some "a3"), .causa "a4" none none] ∧
    ¬ ((2 : Nat) = 4 / 3) := by
  exact ⟨⟨_, rfl, rfl⟩, rfl, by decide⟩

/-- C3 (amended): a flat cell sequence whose length `n` is not a multiple
of 3 is NOT silently truncated.  For case responses the trailing partial
group yields an extra record, `⌊n/3⌋ + 1` in total, its missing fields
undefined; for room responses a remainder of 1 makes the extraction throw
(the undefined room label reaches `removeAccents`), and a remainder of 2
yields `⌊n/3⌋ + 1` records. -/
theorem partial_group_amended (r lp : List Char) (n : Nat)
    (hlast : (panelMatches r).getLast? = some lp)
    (hn : (tdMatches lp).length = n) (h3 : n % 3 ≠ 0) :
    (containsSub roomMarker r = false →
      ∃ l, cleanUpOne r = .ok l ∧ l.length = n / 3 + 1) ∧
    (containsSub roomMarker r = true →
      (n % 3 = 1 → cleanUpOne r =
        .error "TypeError: Cannot read properties of undefined (reading replace)") ∧
      (n % 3 = 2 →
        ∃ l, cleanUpOne r = .ok l ∧ l.length = n / 3 + 1)) := by
  constructor
  · intro hroom
    refine ⟨groupCausas (tdMatches lp), ?_, ?_⟩
    · simp [cleanUpOne, hlast, hroom]
    · rw [groupCausas_length, hn]
      omega
  · intro hroom
    constructor
    · intro h1
      simp [cleanUpOne, hlast, hroom,
        groupRooms_mod1 (tdMatches lp) (by rw [hn]; exact h1)]
    · intro h2
      obtain ⟨out, ho, hl⟩ :=
        groupRooms_mod2 (tdMatches lp) (by rw [hn]; exact h2)
      refine ⟨out, ?_, ?_⟩
      · simp [cleanUpOne, hlast, hroom, ho]
      · rw [hl, hn]

/-- Witness for the amended C3 at the four-cell case response. -/
theorem partial_group_amended_witness :
    ∃ l, cleanUpOne exCausaFourCells = .ok l ∧ l.length = 4 / 3 + 1 :=
  (partial_group_amended exCausaFourCells _ 4 rfl rfl (by decide)).1 rfl

theorem cleanUpOne_no_panel (r : List Char)
    (h : containsSub panelOpen r = false) :
    cleanUpOne r =
      .error "TypeError: Cannot read properties of undefined (reading 1)" := by
  have hnone : splitAtSub panelOpen r = none := by
    cases hs : splitAtSub panelOpen r with
    | none => rfl
    | some p => rw [containsSub, hs] at h; cases h
  have hempty : panelMatches r = [] := by
    simp [panelMatches, panelLoop, hnone]
  simp [cleanUpOne, hempty]

/-- C7: extraction distinguishes structural failure from emptiness — a
response with no content-panel delimiter makes `cleanUpResponses` throw
(indexing `undefined`), while a response whose last panel has zero table
cells yields an empty record list, not an error. -/
theorem extraction_error_vs_empty :
    (∀ (rs : List (List Char)) (r : List Char), r ∈ rs →
      containsSub panelOpen r = false →
      ∃ e, cleanUpResponses rs = .error e) ∧
    (∀ (r lp : List Char), (panelMatches r).getLast? = some lp →
      tdMatches lp = [] → cleanUpResponses [r] = .ok [[]]) := by
  constructor
  · intro rs r hmem h
    exact mapExcept_error_of_mem cleanUpOne rs r hmem
      ⟨_, cleanUpOne_no_panel r h⟩
  · intro r lp hlast htd
    have hone : cleanUpOne r = .ok [] := by
      cases hroom : containsSub roomMarker r <;>
        simp [cleanUpOne, hlast, htd, hroom, groupRooms, groupCausas]
    simp [cleanUpResponses, mapExcept, hone]

/-- Witness for C7: a delimiter-free response aborts the batch; an
empty-panel response extracts to an empty record list. -/
theorem extraction_error_vs_empty_witness :
    (∃ e, cleanUpResponses ["no panels at all".data] = .error e) ∧
    cleanUpResponses [exEmptyPanel] = .ok [[]] :=
  ⟨extraction_error_vs_empty.1 _ ("no panels at all".data) (by simp)
      (by decide),
   extraction_error_vs_empty.2 exEmptyPanel _ rfl rfl⟩

/-- C8 counterexample: with an empty filter-term list,
`filteringTerms.join("|")` is the empty pattern, which matches every
caption — "Filtrado" equals the full non-empty row set, neither an error
nor an empty result. -/
theorem empty_terms_claim_false :
    ∃ m, readyResponsesForSheet [exAssembled] [] = .ok m ∧
      m.filtrado = m.todas ∧ m.todas ≠ [] := by
  exact ⟨_, rfl, rfl, by decide⟩

/-- C8 (amended): an empty term list joins to the empty regex pattern,
which matches everything: whenever `readyResponsesForSheet` succeeds with
an empty term list, "Filtrado" contains all rows. -/
theorem empty_terms_match_all (courts : List AssembledCourt) (m : SheetMatrix)
    (h : readyResponsesForSheet courts [] = .ok m) :
    m.filtrado = m.todas := by
  have hall : ∀ (x : Row) (b : Bool),
      (match x.caratula with
       | none =>
         (.error "TypeError: Cannot read properties of undefined (reading toLowerCase)" :
           Except String Bool)
       | some car =>
         .ok (jsAltRegexTest [] (removeAccents (toLowerStr car.data)))) =
        .ok b → b = true := by
    intro x b hx
    cases hc : x.caratula with
    | none => rw [hc] at hx; exact Except.noConfusion hx
    | some car =>
      rw [hc] at hx
      simp only [Except.ok.injEq] at hx
      rw [← hx]
      simp [jsAltRegexTest]
  unfold readyResponsesForSheet at h
  split at h
  · exact Except.noConfusion h
  · simp only at h
    split at h
    · exact Except.noConfusion h
    · cases h
      exact filterExcept_ok_of_all_true _ hall _ _ (by assumption)

/-- Witness for the amended C8 at the one-row assembled court. -/
theorem empty_terms_match_all_witness :
    ∃ m, readyResponsesForSheet [exAssembled] [] = .ok m ∧
      m.filtrado = m.todas :=
  ⟨_, rfl, empty_terms_match_all [exAssembled] _ rfl⟩

theorem zipPair_ok {α β : Type} (A : List α) (B : List β) (r : List (α × β))
    (h : zipPair A B = .ok r) : A.length = B.length ∧ r = A.zip B := by
  unfold zipPair at h
  split at h
  · exact Except.noConfusion h
  · next hne => exact ⟨not_ne_iff.mp hne, by cases h; rfl⟩

theorem prod_factor {A B C : Type} (g : A → B → C) (l1 : List A) (l2 : List B) :
    l1.flatMap (fun x => l2.map (fun y => g x y)) =
      (l1.flatMap (fun x => l2.map (fun y => (x, y)))).map
        (fun p => g p.1 p.2) := by
  rw [List.map_flatMap]
  refine congrArg _ (funext fun x => ?_)
  rw [List.map_map]
  rfl

/-- C1 counterexample: a run in which every fetch and extraction succeeds,
yet the assembled court carries `|distinct dates| * |distinct rooms| = 4`
per-room case lists against only 2 room-assignment records — nothing in
the pipeline checks the inner lengths, only the per-court zips are
guarded. -/
theorem alignment_claim_false :
    ∃ a, runPhase2 [exCourt] exRooms (fun _ => exEmptyCaseResponse) =
      .ok [a] ∧ a.roomsData.length = 2 ∧ a.casesData.length = 4 := by
  exact ⟨_, rfl, rfl, rfl⟩

/-- C1 (amended): in a successful run, each assembled court's `casesData`
has `|distinct dates| * |distinct rooms|` entries, which equals
`|roomsData|` — with `casesData[i]` extracted from the response fetched for
`roomsData[i]`'s (date, room) pair — exactly when the court's room records
enumerate the full date × room product in date-major, first-occurrence
order. -/
theorem alignment_amended (courts : List CourtData) (rooms : List (List Rec))
    (fetch : CaseRequest → List Char) (out : List AssembledCourt)
    (hrun : runPhase2 courts rooms fetch = .ok out)
    (i : Nat) (a : AssembledCourt) (hi : out[i]? = some a)
    (halign : roomPairs a.roomsData = prodPairs a.roomsData) :
    a.casesData.length = a.roomsData.length ∧
    ∀ (j : Nat) (room : Rec), a.roomsData[j]? = some room →
      ∃ cs, a.casesData[j]? = some cs ∧
        cleanUpOne (fetch (mkCaseRequest a.courtData (fechaOf room)
          (salaIntOf room))) = .ok cs := by
  unfold runPhase2 at hrun
  cases heqF : zipPair courts (extractParametersFromRoomsData rooms) with
  | error e => rw [heqF] at hrun; simp at hrun
  | ok courtsAndFechas =>
  rw [heqF] at hrun
  simp only [] at hrun
  cases heqM : mapExcept cleanUpResponses
      ((createCaseRequestsArray courtsAndFechas).map
        (fun reqs => reqs.map fetch)) with
  | error e => rw [heqM] at hrun; simp at hrun
  | ok casesAll =>
  rw [heqM] at hrun
  simp only [] at hrun
  cases heqR : zipPair courts rooms with
  | error e => rw [heqR] at hrun; simp at hrun
  | ok courtsAndRooms =>
  rw [heqR] at hrun
  simp only [] at hrun
  cases heqZ : zipPair courtsAndRooms casesAll with
  | error e => rw [heqZ] at hrun; simp at hrun
  | ok crc =>
  rw [heqZ] at hrun
  simp only [] at hrun
  injection hrun with hout
  subst hout
  -- dissect the zips
  obtain ⟨hlenF, rfl⟩ := zipPair_ok _ _ _ heqF
  obtain ⟨hlenR, rfl⟩ := zipPair_ok _ _ _ heqR
  obtain ⟨hlenZ, rfl⟩ := zipPair_ok _ _ _ heqZ
  -- the element behind a
  rw [List.getElem?_map] at hi
  obtain ⟨p, hp, rfl⟩ := Option.map_eq_some'.mp hi
  obtain ⟨hcr, hcs⟩ := zip_getElem?_inv _ _ _ _ hp
  obtain ⟨hcourt, hrooms⟩ := zip_getElem?_inv _ _ _ _ hcr
  -- the weekInfo derived from this court's rooms
  have hdates : (extractParametersFromRoomsData rooms)[i]? =
      some ⟨jsSetDedup (p.1.2.map fechaOf), jsSetDedup (p.1.2.map salaIntOf)⟩ := by
    unfold extractParametersFromRoomsData
    rw [List.getElem?_map, hrooms]
    rfl
  have hcf : (courts.zip (extractParametersFromRoomsData rooms))[i]? =
      some (p.1.1, ⟨jsSetDedup (p.1.2.map fechaOf),
        jsSetDedup (p.1.2.map salaIntOf)⟩) :=
    zip_getElem?_of _ _ _ _ _ hcourt hdates
  -- this court's request list is its rooms mapped to requests
  have hreq : (createCaseRequestsArray
      (courts.zip (extractParametersFromRoomsData rooms)))[i]? =
      some (p.1.2.map (fun r =>
        mkCaseRequest p.1.1 (fechaOf r) (salaIntOf r))) := by
    unfold createCaseRequestsArray
    rw [List.getElem?_map, hcf]
    simp only [Option.map_some']
    rw [prod_factor]
    have hpp : (jsSetDedup (p.1.2.map fechaOf)).flatMap
        (fun f => (jsSetDedup (p.1.2.map salaIntOf)).map (fun s => (f, s))) =
        roomPairs p.1.2 := (halign.symm : _)
    rw [hpp]
    unfold roomPairs
    rw [List.map_map]
    rfl
  -- the extracted case lists for this court
  have hmapped : ((createCaseRequestsArray
      (courts.zip (extractParametersFromRoomsData rooms))).map
        (fun reqs => reqs.map fetch))[i]? =
      some ((p.1.2.map (fun r =>
        mkCaseRequest p.1.1 (fechaOf r) (salaIntOf r))).map fetch) := by
    rw [List.getElem?_map, hreq]
    rfl
  obtain ⟨ci, hci, hclean⟩ := mapExcept_ok_getElem? _ _ _ heqM i _ hmapped
  have hpci : p.2 = ci := by
    rw [hcs] at hci
    exact (Option.some.injEq _ _).mp hci
  subst hpci
  -- now read off the two conclusions
  constructor
  · have hl := mapExcept_ok_length _ _ _ hclean
    simpa using hl
  · intro j room hroomj
    have hfj : ((p.1.2.map (fun r =>
        mkCaseRequest p.1.1 (fechaOf r) (salaIntOf r))).map fetch)[j]? =
        some (fetch (mkCaseRequest p.1.1 (fechaOf room) (salaIntOf room))) := by
      rw [List.getElem?_map, List.getElem?_map, hroomj]
      rfl
    obtain ⟨cs, hcsj, hc1⟩ := mapExcept_ok_getElem? _ _ _ hclean j _ hfj
    exact ⟨cs, hcsj, hc1⟩

/-- Witness for the amended C1: a court whose two room records are exactly
its one-room, two-date product gets two case lists, one per room record. -/
theorem alignment_amended_witness :
    ∃ a, runPhase2 [exCourt] exRoomsAligned (fun _ => exEmptyCaseResponse) =
      .ok [a] ∧ a.casesData.length = a.roomsData.length := by
  obtain ⟨hlen, _⟩ := alignment_amended [exCourt] exRoomsAligned
    (fun _ => exEmptyCaseResponse) _ rfl 0 _ rfl (by decide)
  exact ⟨_, rfl, hlen⟩

end Scraper
